import Mathlib

/-!
Verification of the payload codec in
`crates/n42/alloy-rpc-types-engine/src/payload.rs`.

The Rust code is shallowly embedded: byte buffers are `List Nat` (each entry a
byte value `< 256`), machine integers are `Nat` with explicit bounds,
fallible operations return `Except String`.  Rust `panic!` sites (vector
`drain` out of range, `SszDecoder::decode_next` past the registered items) are
modelled as explicit failure outcomes.
-/

set_option maxRecDepth 1000000

deriving instance DecidableEq for Except

namespace Payload

/-! ## Hex digits and quantities

The human-readable codec renders unsigned quantities as `"0x"`-prefixed
minimal lowercase hex (`alloy_serde::quantity` / the `U256` serde impl), and
byte strings as `"0x"`-prefixed two-digits-per-byte lowercase hex. -/

/-- Lowercase hex digit character for a digit value `d < 16`. -/
def hexDigitChar (d : Nat) : Char :=
  if d < 10 then Char.ofNat (48 + d) else Char.ofNat (87 + d)

/-- Value of a hex digit character, accepted case-insensitively. -/
def hexDigitVal (c : Char) : Option Nat :=
  if 48 ≤ c.toNat ∧ c.toNat ≤ 57 then some (c.toNat - 48)
  else if 97 ≤ c.toNat ∧ c.toNat ≤ 102 then some (c.toNat - 87)
  else if 65 ≤ c.toNat ∧ c.toNat ≤ 70 then some (c.toNat - 55)
  else none

/-- Little-endian base-16 digit values of `n` (fuel-structured so that it
reduces in the kernel). -/
def natHexAux : Nat → Nat → List Nat
  | 0, _ => []
  | f + 1, n => if n < 16 then [n] else n % 16 :: natHexAux f (n / 16)

/-- Little-endian base-16 digits of `n`; `[0]` for zero, no leading-zero digit
at the most significant end. -/
def natHexLE (n : Nat) : List Nat := natHexAux (n + 1) n

/-- Value of a little-endian digit list. -/
def digitsValLE : List Nat → Nat
  | [] => 0
  | d :: ds => d + 16 * digitsValLE ds

/-- Minimal lowercase hex quantity rendering, e.g. `0 ↦ "0x0"`, `1 ↦ "0x1"`. -/
def quantityHex (n : Nat) : String :=
  "0x" ++ String.mk (((natHexLE n).reverse).map hexDigitChar)

/-- Parse hex digit characters, most significant first, into `acc`. -/
def parseHexNat : List Char → Nat → Option Nat
  | [], acc => some acc
  | c :: cs, acc =>
    match hexDigitVal c with
    | some d => parseHexNat cs (16 * acc + d)
    | none => none

/-- Parse a `"0x"`-prefixed quantity; case-insensitive, any number of leading
zeros, at least one digit, value must be `< bound` (the in-range check of the
target integer width). -/
def parseQuantity (bound : Nat) (s : String) : Except String Nat :=
  match s.data with
  | c1 :: c2 :: rest =>
    if c1 = '0' ∧ c2 = 'x' then
      if rest = [] then .error "quantity: no digits"
      else
        match parseHexNat rest 0 with
        | some v => if v < bound then .ok v else .error "quantity: out of range"
        | none => .error "quantity: bad digit"
    else .error "quantity: missing 0x"
  | _ => .error "quantity: missing 0x"

/-- Two lowercase hex digit characters per byte, most significant first. -/
def bytesToHexChars : List Nat → List Char
  | [] => []
  | b :: bs => hexDigitChar (b / 16) :: hexDigitChar (b % 16) :: bytesToHexChars bs

/-- Render a byte list as `"0x"`-prefixed lowercase hex, two digits a byte. -/
def bytesToHex (bs : List Nat) : String :=
  "0x" ++ String.mk (bytesToHexChars bs)

/-- Parse pairs of hex digit characters into bytes. -/
def parseHexBytes : List Char → Option (List Nat)
  | [] => some []
  | c1 :: c2 :: rest => do
    let d1 ← hexDigitVal c1
    let d2 ← hexDigitVal c2
    let bs ← parseHexBytes rest
    some ((16 * d1 + d2) :: bs)
  | [_] => none

/-- Parse a `"0x"`-prefixed byte string of arbitrary (even) length. -/
def parseBytesJson (s : String) : Except String (List Nat) :=
  match s.data with
  | c1 :: c2 :: rest =>
    if c1 = '0' ∧ c2 = 'x' then
      match parseHexBytes rest with
      | some bs => .ok bs
      | none => .error "bytes: bad hex"
    else .error "bytes: missing 0x"
  | _ => .error "bytes: missing 0x"

/-- Parse a fixed-width byte string (`B256`, `Address`, `Bloom`, `B64`). -/
def parseFixedBytesJson (w : Nat) (s : String) : Except String (List Nat) := do
  let bs ← parseBytesJson s
  if bs.length = w then .ok bs else .error "bytes: wrong length"

/-- All entries are byte values. -/
def bytesOk (bs : List Nat) : Bool := bs.all (· < 256)

/-! ## JSON documents

A structured model of the serde_json data the codec produces and consumes.
All scalar payload fields are rendered as strings, so only strings, arrays,
objects and `null` are needed. -/

inductive Json where
  | null
  | str (s : String)
  | arr (elems : List Json)
  | obj (fields : List (String × Json))

/-- First binding of a key in an object's field list (serde reads the first
occurrence of a field name). -/
def findField : List (String × Json) → String → Option Json
  | [], _ => none
  | (k', v) :: rest, k => if k' = k then some v else findField rest k

/-- Key set of an object, in order. -/
def objKeys : Json → List String
  | .obj fs => fs.map (·.1)
  | _ => []

/-- Field list of an object. -/
def objFields : Json → List (String × Json)
  | .obj fs => fs
  | _ => []

/-- Compact rendering, as `serde_json::to_string` produces (fuel-structured
over the nesting depth so that it reduces in the kernel). -/
def renderJson : Nat → Json → String
  | 0, _ => ""
  | fuel + 1, j =>
    match j with
    | .null => "null"
    | .str s => "\"" ++ s ++ "\""
    | .arr xs => "[" ++ String.intercalate "," (xs.map (renderJson fuel)) ++ "]"
    | .obj fs =>
      "\x7b" ++
        String.intercalate ","
          (fs.map fun e => "\"" ++ e.1 ++ "\":" ++ renderJson fuel e.2) ++
      "\x7d"

/-- Rendering at ample depth for every document in this development. -/
def render (j : Json) : String := renderJson 32 j

/-! ## The record family

Mirrors of the Rust structs.  Fixed-byte newtypes (`B256`, `Address`, `Bloom`,
`B64`) are byte lists whose length is part of the validity predicate (in Rust
it is part of the type); `u64`/`U256` are `Nat` with bounds in the validity
predicate. -/

/-- `ExecutionPayloadV1` (payload.rs lines 159-196), including the two
N42-specific trailing fields `difficulty` and `nonce`. -/
structure ExecutionPayloadV1 where
  parent_hash : List Nat
  fee_recipient : List Nat
  state_root : List Nat
  receipts_root : List Nat
  logs_bloom : List Nat
  prev_randao : List Nat
  block_number : Nat
  gas_limit : Nat
  gas_used : Nat
  timestamp : Nat
  extra_data : List Nat
  base_fee_per_gas : Nat
  block_hash : List Nat
  transactions : List (List Nat)
  difficulty : Nat
  nonce : List Nat
deriving DecidableEq

/-- `alloy_eips::eip4895::Withdrawal`: `index`/`validator_index`/`amount` are
`u64`, `address` is 20 bytes. -/
structure Withdrawal where
  index : Nat
  validator_index : Nat
  address : List Nat
  amount : Nat
deriving DecidableEq

/-- `ExecutionPayloadV2` (payload.rs lines 211-219). -/
structure ExecutionPayloadV2 where
  payload_inner : ExecutionPayloadV1
  withdrawals : List Withdrawal
deriving DecidableEq

/-- `ExecutionPayloadV3` (payload.rs lines 327-340). -/
structure ExecutionPayloadV3 where
  payload_inner : ExecutionPayloadV2
  blob_gas_used : Nat
  excess_blob_gas : Nat
deriving DecidableEq

/-- `ExecutionPayloadInputV2` (payload.rs lines 71-78). -/
structure ExecutionPayloadInputV2 where
  execution_payload : ExecutionPayloadV1
  withdrawals : Option (List Withdrawal)
deriving DecidableEq

/-- The untagged `ExecutionPayload` union (payload.rs lines 585-592). -/
inductive ExecutionPayload where
  | v1 (payload : ExecutionPayloadV1)
  | v2 (payload : ExecutionPayloadV2)
  | v3 (payload : ExecutionPayloadV3)
deriving DecidableEq

/-- The Rust type invariants of `ExecutionPayloadV1`: fixed-byte fields have
their nominal width, every buffer entry is a byte, numeric fields fit their
machine width (`u64` / `U256`). -/
def validV1 (p : ExecutionPayloadV1) : Bool :=
  p.parent_hash.length == 32 && (bytesOk p.parent_hash &&
  (p.fee_recipient.length == 20 && (bytesOk p.fee_recipient &&
  (p.state_root.length == 32 && (bytesOk p.state_root &&
  (p.receipts_root.length == 32 && (bytesOk p.receipts_root &&
  (p.logs_bloom.length == 256 && (bytesOk p.logs_bloom &&
  (p.prev_randao.length == 32 && (bytesOk p.prev_randao &&
  (decide (p.block_number < 2 ^ 64) && (decide (p.gas_limit < 2 ^ 64) &&
  (decide (p.gas_used < 2 ^ 64) && (decide (p.timestamp < 2 ^ 64) &&
  (bytesOk p.extra_data &&
  (decide (p.base_fee_per_gas < 2 ^ 256) &&
  (p.block_hash.length == 32 && (bytesOk p.block_hash &&
  (p.transactions.all bytesOk &&
  (decide (p.difficulty < 2 ^ 256) &&
  (p.nonce.length == 8 && bytesOk p.nonce))))))))))))))))))))))

/-- Rust type invariants of a `Withdrawal`. -/
def validWithdrawal (w : Withdrawal) : Bool :=
  decide (w.index < 2 ^ 64) && (decide (w.validator_index < 2 ^ 64) &&
  (w.address.length == 20 && (bytesOk w.address && decide (w.amount < 2 ^ 64))))

/-- Rust type invariants of `ExecutionPayloadV2`. -/
def validV2 (p : ExecutionPayloadV2) : Bool :=
  validV1 p.payload_inner && p.withdrawals.all validWithdrawal

/-- Rust type invariants of `ExecutionPayloadV3`. -/
def validV3 (p : ExecutionPayloadV3) : Bool :=
  validV2 p.payload_inner &&
    (decide (p.blob_gas_used < 2 ^ 64) && decide (p.excess_blob_gas < 2 ^ 64))

/-! ## Human-readable codec

Embedding of the serde derives: `rename_all = "camelCase"`, `flatten` on the
embedded parent (parent keys inline), `deny_unknown_fields` on
`ExecutionPayloadV2` / `ExecutionPayloadInputV2` (any key outside the known
set is an error, which the flattening parent/child chain preserves), plain
field order on output, order-insensitive lookup with ignored unknown keys on
`ExecutionPayloadV1` input. -/

/-- The camelCase key set of `ExecutionPayloadV1`, in declaration order. -/
def v1Keys : List String :=
  ["parentHash", "feeRecipient", "stateRoot", "receiptsRoot", "logsBloom",
   "prevRandao", "blockNumber", "gasLimit", "gasUsed", "timestamp",
   "extraData", "baseFeePerGas", "blockHash", "transactions", "difficulty",
   "nonce"]

/-- Known keys of `ExecutionPayloadV2` (and of `ExecutionPayloadInputV2`). -/
def v2Keys : List String := v1Keys ++ ["withdrawals"]

/-- Known keys of `ExecutionPayloadV3`. -/
def v3Keys : List String := v2Keys ++ ["blobGasUsed", "excessBlobGas"]

/-- Required field lookup. -/
def getField (fs : List (String × Json)) (k : String) : Except String Json :=
  match findField fs k with
  | some v => .ok v
  | none => .error ("missing field " ++ k)

/-- Expect a JSON string. -/
def asStr : Json → Except String String
  | .str s => .ok s
  | _ => .error "expected string"

/-- Expect a JSON array. -/
def asArr : Json → Except String (List Json)
  | .arr xs => .ok xs
  | _ => .error "expected array"

/-- A required fixed-width hex-bytes field. -/
def getFixedBytesField (fs : List (String × Json)) (k : String) (w : Nat) :
    Except String (List Nat) := do
  parseFixedBytesJson w (← asStr (← getField fs k))

/-- A required variable-length hex-bytes field. -/
def getBytesField (fs : List (String × Json)) (k : String) :
    Except String (List Nat) := do
  parseBytesJson (← asStr (← getField fs k))

/-- A required hex-quantity field. -/
def getQuantityField (fs : List (String × Json)) (k : String) (bound : Nat) :
    Except String Nat := do
  parseQuantity bound (← asStr (← getField fs k))

/-- Parse a list of JSON values elementwise (serde `Vec`). -/
def parseListJson (f : Json → Except String α) : List Json → Except String (List α)
  | [] => .ok []
  | j :: js => do
    let a ← f j
    let as ← parseListJson f js
    .ok (a :: as)

/-- Deserializer of `Withdrawal` (camelCase, unknown keys ignored). -/
def parseWithdrawalJson : Json → Except String Withdrawal
  | .obj fs => do
    let index ← getQuantityField fs "index" (2 ^ 64)
    let validator_index ← getQuantityField fs "validatorIndex" (2 ^ 64)
    let address ← getFixedBytesField fs "address" 20
    let amount ← getQuantityField fs "amount" (2 ^ 64)
    .ok { index, validator_index, address, amount }
  | _ => .error "withdrawal: expected object"

/-- A required `Vec<Withdrawal>` field. -/
def getWithdrawalsField (fs : List (String × Json)) :
    Except String (List Withdrawal) := do
  parseListJson parseWithdrawalJson (← asArr (← getField fs "withdrawals"))

/-- Deserializer of one transaction entry (a hex byte string). -/
def parseTxJson (j : Json) : Except String (List Nat) := do
  parseBytesJson (← asStr j)

/-- A required `Vec<Bytes>` field (the transactions). -/
def getTxsField (fs : List (String × Json)) :
    Except String (List (List Nat)) := do
  parseListJson parseTxJson (← asArr (← getField fs "transactions"))

/-- Deserializer of `ExecutionPayloadV1` from an object's fields: all sixteen
fields required, unknown keys ignored (no `deny_unknown_fields` on V1). -/
def parseV1Obj (fs : List (String × Json)) : Except String ExecutionPayloadV1 := do
  let parent_hash ← getFixedBytesField fs "parentHash" 32
  let fee_recipient ← getFixedBytesField fs "feeRecipient" 20
  let state_root ← getFixedBytesField fs "stateRoot" 32
  let receipts_root ← getFixedBytesField fs "receiptsRoot" 32
  let logs_bloom ← getFixedBytesField fs "logsBloom" 256
  let prev_randao ← getFixedBytesField fs "prevRandao" 32
  let block_number ← getQuantityField fs "blockNumber" (2 ^ 64)
  let gas_limit ← getQuantityField fs "gasLimit" (2 ^ 64)
  let gas_used ← getQuantityField fs "gasUsed" (2 ^ 64)
  let timestamp ← getQuantityField fs "timestamp" (2 ^ 64)
  let extra_data ← getBytesField fs "extraData"
  let base_fee_per_gas ← getQuantityField fs "baseFeePerGas" (2 ^ 256)
  let block_hash ← getFixedBytesField fs "blockHash" 32
  let transactions ← getTxsField fs
  let difficulty ← getQuantityField fs "difficulty" (2 ^ 256)
  let nonce ← getFixedBytesField fs "nonce" 8
  .ok { parent_hash, fee_recipient, state_root, receipts_root, logs_bloom,
        prev_randao, block_number, gas_limit, gas_used, timestamp, extra_data,
        base_fee_per_gas, block_hash, transactions, difficulty, nonce }

/-- Deserializer of `ExecutionPayloadV1` from a document. -/
def parseV1Json : Json → Except String ExecutionPayloadV1
  | .obj fs => parseV1Obj fs
  | _ => .error "expected object"

/-- Deserializer of `ExecutionPayloadV2`: `deny_unknown_fields` rejects any
key outside the known set, then the flattened V1 and `withdrawals` are read. -/
def parseV2Obj (fs : List (String × Json)) : Except String ExecutionPayloadV2 :=
  if fs.all (fun e => decide (e.1 ∈ v2Keys)) then do
    let payload_inner ← parseV1Obj fs
    let withdrawals ← getWithdrawalsField fs
    .ok { payload_inner, withdrawals }
  else .error "unknown field"

/-- Deserializer of `ExecutionPayloadV2` from a document. -/
def parseV2Json : Json → Except String ExecutionPayloadV2
  | .obj fs => parseV2Obj fs
  | _ => .error "expected object"

/-- Deserializer of `ExecutionPayloadV3`: its own two quantity fields are
consumed, every remaining key is handed to the flattened `ExecutionPayloadV2`
(whose `deny_unknown_fields` then rejects any unknown key). -/
def parseV3Obj (fs : List (String × Json)) : Except String ExecutionPayloadV3 := do
  let blob_gas_used ← getQuantityField fs "blobGasUsed" (2 ^ 64)
  let excess_blob_gas ← getQuantityField fs "excessBlobGas" (2 ^ 64)
  let payload_inner ← parseV2Obj
    (fs.filter fun e => decide (e.1 ≠ "blobGasUsed" ∧ e.1 ≠ "excessBlobGas"))
  .ok { payload_inner, blob_gas_used, excess_blob_gas }

/-- Deserializer of `ExecutionPayloadV3` from a document. -/
def parseV3Json : Json → Except String ExecutionPayloadV3
  | .obj fs => parseV3Obj fs
  | _ => .error "expected object"

/-- Deserializer of `ExecutionPayloadInputV2`: `deny_unknown_fields` over the
flattened V1 keys plus `withdrawals`, with `withdrawals` optional (`None` when
the key is missing). -/
def parseInputV2Json : Json → Except String ExecutionPayloadInputV2
  | .obj fs =>
    if fs.all (fun e => decide (e.1 ∈ v2Keys)) then do
      let execution_payload ← parseV1Obj fs
      let withdrawals ←
        match findField fs "withdrawals" with
        | none => .ok none
        | some j => do .ok (some (← parseListJson parseWithdrawalJson (← asArr j)))
      .ok { execution_payload, withdrawals }
    else .error "unknown field"
  | _ => .error "expected object"

/-- Untagged `ExecutionPayload` deserialization (payload.rs lines 715-733):
candidates are tried in the order V3, V2, V1 and the first success wins. -/
def parseExecutionPayload (j : Json) : Except String ExecutionPayload :=
  match parseV3Json j with
  | .ok p => .ok (.v3 p)
  | .error _ =>
    match parseV2Json j with
    | .ok p => .ok (.v2 p)
    | .error _ =>
      match parseV1Json j with
      | .ok p => .ok (.v1 p)
      | .error e => .error e

/-- Serializer of `ExecutionPayloadV1`: fields in declaration order, camelCase
names, quantities as minimal hex, byte fields as full hex strings. -/
def serializeV1Fields (p : ExecutionPayloadV1) : List (String × Json) :=
  [("parentHash", .str (bytesToHex p.parent_hash)),
   ("feeRecipient", .str (bytesToHex p.fee_recipient)),
   ("stateRoot", .str (bytesToHex p.state_root)),
   ("receiptsRoot", .str (bytesToHex p.receipts_root)),
   ("logsBloom", .str (bytesToHex p.logs_bloom)),
   ("prevRandao", .str (bytesToHex p.prev_randao)),
   ("blockNumber", .str (quantityHex p.block_number)),
   ("gasLimit", .str (quantityHex p.gas_limit)),
   ("gasUsed", .str (quantityHex p.gas_used)),
   ("timestamp", .str (quantityHex p.timestamp)),
   ("extraData", .str (bytesToHex p.extra_data)),
   ("baseFeePerGas", .str (quantityHex p.base_fee_per_gas)),
   ("blockHash", .str (bytesToHex p.block_hash)),
   ("transactions", .arr (p.transactions.map fun tx => .str (bytesToHex tx))),
   ("difficulty", .str (quantityHex p.difficulty)),
   ("nonce", .str (bytesToHex p.nonce))]

/-- Serializer of `ExecutionPayloadV1` as a document. -/
def serializeV1Json (p : ExecutionPayloadV1) : Json := .obj (serializeV1Fields p)

/-- Serializer of `ExecutionPayloadInputV2`: the flattened V1 fields inline,
then `withdrawals` — omitted entirely when `None`
(`skip_serializing_if = "Option::is_none"`). -/
def serializeWithdrawalJson (w : Withdrawal) : Json :=
  .obj [("index", .str (quantityHex w.index)),
        ("validatorIndex", .str (quantityHex w.validator_index)),
        ("address", .str (bytesToHex w.address)),
        ("amount", .str (quantityHex w.amount))]

/-- Serializer of `ExecutionPayloadInputV2` as a document. -/
def serializeInputV2Json (p : ExecutionPayloadInputV2) : Json :=
  .obj (serializeV1Fields p.execution_payload ++
    (match p.withdrawals with
     | none => []
     | some ws => [("withdrawals", .arr (ws.map serializeWithdrawalJson))]))

/-! ## Binary offset-table (SSZ) codec

Embedding of the `ssz` crate machinery the manual `Encode`/`Decode` impls for
`ExecutionPayloadV2`/`V3` use: an `SszEncoder` writes fixed-size values inline
and, for each variable-size value, a 4-byte little-endian offset inline plus
the value's bytes in an appended tail; an `SszDecoderBuilder` registers the
expected types, splits the buffer into one byte-slice per registered type
using the offset table, and `decode_next` pops the slices in order. -/

/-- `w` little-endian base-256 bytes of `n` (the SSZ encoding of `uintN` and
of length offsets). -/
def encodeUIntLE : Nat → Nat → List Nat
  | 0, _ => []
  | w + 1, n => n % 256 :: encodeUIntLE w (n / 256)

/-- Value of a little-endian byte list. -/
def uintFromLE : List Nat → Nat
  | [] => 0
  | b :: bs => b + 256 * uintFromLE bs

/-- `ssz::SszEncoder` state: fixed-portion bytes, appended variable tail, and
the running offset (initialised to the container's declared fixed length). -/
structure SszEncoderState where
  fixedParts : List Nat
  variableParts : List Nat
  offset : Nat

/-- `SszEncoder::container(buf, num_fixed_bytes)`. -/
def sszContainer (numFixedBytes : Nat) : SszEncoderState :=
  { fixedParts := [], variableParts := [], offset := numFixedBytes }

/-- `encoder.append(&x)` for a fixed-size `x` whose encoding is `bs`. -/
def sszAppendFixed (st : SszEncoderState) (bs : List Nat) : SszEncoderState :=
  { st with fixedParts := st.fixedParts ++ bs }

/-- `encoder.append(&x)` for a variable-size `x` whose encoding is `bs`:
a 4-byte offset goes inline, the bytes go to the tail. -/
def sszAppendVariable (st : SszEncoderState) (bs : List Nat) : SszEncoderState :=
  { fixedParts := st.fixedParts ++ encodeUIntLE 4 st.offset,
    variableParts := st.variableParts ++ bs,
    offset := st.offset + bs.length }

/-- `encoder.finalize()`. -/
def sszFinalize (st : SszEncoderState) : List Nat :=
  st.fixedParts ++ st.variableParts

/-- SSZ encoding of `Bytes` is the raw byte list. -/
def encodeBytesSsz (bs : List Nat) : List Nat := bs

/-- Offset table of a list of variable-size encodings, starting at `start`. -/
def vecOffsets (start : Nat) : List (List Nat) → List Nat
  | [] => []
  | x :: xs => encodeUIntLE 4 start ++ vecOffsets (start + x.length) xs

/-- SSZ encoding of `Vec<Bytes>`: one 4-byte offset per element, then the
elements' bytes concatenated. -/
def encodeVecBytesSsz (xs : List (List Nat)) : List Nat :=
  vecOffsets (4 * xs.length) xs ++ xs.flatMap id

/-- SSZ encoding of a `Withdrawal` (fixed-size, 44 bytes). -/
def encodeWithdrawalSsz (w : Withdrawal) : List Nat :=
  encodeUIntLE 8 w.index ++ encodeUIntLE 8 w.validator_index ++
    w.address ++ encodeUIntLE 8 w.amount

/-- SSZ encoding of `Vec<Withdrawal>`: fixed-size elements concatenate with no
per-element offsets. -/
def encodeVecWithdrawalsSsz (ws : List Withdrawal) : List Nat :=
  ws.flatMap encodeWithdrawalSsz

/-- `<ExecutionPayloadV2 as ssz::Encode>::ssz_append` (payload.rs lines
285-312): declared fixed length `32*5 + 20 + 256 + 8*4 + 32 + 4*3 = 512`,
then fifteen appends — the fourteen V1 fields up to `transactions` plus
`withdrawals`; `difficulty` and `nonce` are never appended. -/
def sszAppendV2 (p : ExecutionPayloadV2) : List Nat :=
  let v1 := p.payload_inner
  let st := sszContainer 512
  let st := sszAppendFixed st v1.parent_hash
  let st := sszAppendFixed st v1.fee_recipient
  let st := sszAppendFixed st v1.state_root
  let st := sszAppendFixed st v1.receipts_root
  let st := sszAppendFixed st v1.logs_bloom
  let st := sszAppendFixed st v1.prev_randao
  let st := sszAppendFixed st (encodeUIntLE 8 v1.block_number)
  let st := sszAppendFixed st (encodeUIntLE 8 v1.gas_limit)
  let st := sszAppendFixed st (encodeUIntLE 8 v1.gas_used)
  let st := sszAppendFixed st (encodeUIntLE 8 v1.timestamp)
  let st := sszAppendVariable st (encodeBytesSsz v1.extra_data)
  let st := sszAppendFixed st (encodeUIntLE 32 v1.base_fee_per_gas)
  let st := sszAppendFixed st v1.block_hash
  let st := sszAppendVariable st (encodeVecBytesSsz v1.transactions)
  let st := sszAppendVariable st (encodeVecWithdrawalsSsz p.withdrawals)
  sszFinalize st

/-- `<ExecutionPayloadV3 as ssz::Encode>::ssz_append` (payload.rs lines
417-446): declared fixed length `32*5 + 20 + 256 + 8*6 + 32 + 4*3 = 528`,
seventeen appends ending in `withdrawals`, `blob_gas_used`,
`excess_blob_gas`; again no `difficulty` or `nonce`. -/
def sszAppendV3 (p : ExecutionPayloadV3) : List Nat :=
  let v1 := p.payload_inner.payload_inner
  let st := sszContainer 528
  let st := sszAppendFixed st v1.parent_hash
  let st := sszAppendFixed st v1.fee_recipient
  let st := sszAppendFixed st v1.state_root
  let st := sszAppendFixed st v1.receipts_root
  let st := sszAppendFixed st v1.logs_bloom
  let st := sszAppendFixed st v1.prev_randao
  let st := sszAppendFixed st (encodeUIntLE 8 v1.block_number)
  let st := sszAppendFixed st (encodeUIntLE 8 v1.gas_limit)
  let st := sszAppendFixed st (encodeUIntLE 8 v1.gas_used)
  let st := sszAppendFixed st (encodeUIntLE 8 v1.timestamp)
  let st := sszAppendVariable st (encodeBytesSsz v1.extra_data)
  let st := sszAppendFixed st (encodeUIntLE 32 v1.base_fee_per_gas)
  let st := sszAppendFixed st v1.block_hash
  let st := sszAppendVariable st (encodeVecBytesSsz v1.transactions)
  let st := sszAppendVariable st (encodeVecWithdrawalsSsz p.payload_inner.withdrawals)
  let st := sszAppendFixed st (encodeUIntLE 8 p.blob_gas_used)
  let st := sszAppendFixed st (encodeUIntLE 8 p.excess_blob_gas)
  sszFinalize st

/-- `Vec<T>::ssz_bytes_len` for variable-size `T = Bytes`. -/
def sszBytesLenVecBytes (xs : List (List Nat)) : Nat :=
  (xs.map List.length).sum + 4 * xs.length

/-- Derived `<ExecutionPayloadV1 as ssz::Encode>::ssz_bytes_len`: every
declared field counts — fixed fields at their widths, variable fields as a
4-byte offset plus their encoded length. -/
def sszBytesLenV1 (p : ExecutionPayloadV1) : Nat :=
  32 + 20 + 32 + 32 + 256 + 32 + 8 + 8 + 8 + 8 +
    (4 + p.extra_data.length) + 32 + 32 +
    (4 + sszBytesLenVecBytes p.transactions) + 32 + 8

/-- `ExecutionPayloadV2::ssz_bytes_len` (payload.rs lines 314-318). -/
def sszBytesLenV2 (p : ExecutionPayloadV2) : Nat :=
  sszBytesLenV1 p.payload_inner + 4 + 44 * p.withdrawals.length

/-- `ExecutionPayloadV3::ssz_bytes_len` (payload.rs lines 448-452). -/
def sszBytesLenV3 (p : ExecutionPayloadV3) : Nat :=
  sszBytesLenV2 p.payload_inner + 8 * 2

/-- Modelled from the spec: "`total_length` for a record equals the sum of
fixed-size field widths, plus one 4-byte offset slot per variable-size field,
plus the encoded length of all variable-size field contents" — for
`ExecutionPayloadV2` the fixed widths are the thirteen fixed fields including
`difficulty` (32) and `nonce` (8), and the variable fields are `extra_data`,
`transactions` and `withdrawals`. -/
def specTotalLengthV2 (p : ExecutionPayloadV2) : Nat :=
  (32 + 20 + 32 + 32 + 256 + 32 + 8 + 8 + 8 + 8 + 32 + 32 + 32 + 8) + 4 * 3 +
    (p.payload_inner.extra_data.length +
     (encodeVecBytesSsz p.payload_inner.transactions).length +
     (encodeVecWithdrawalsSsz p.withdrawals).length)

/-- A registered type in an `SszDecoderBuilder`: fixed with a known width, or
variable. -/
inductive SszType where
  | fx (w : Nat)
  | vr

/-- Builder state: bytes consumed from the fixed portion, the item slices so
far (`none` marks a variable-size placeholder), and the offsets read. -/
structure SszBuilderState where
  ix : Nat
  entries : List (Option (List Nat))
  offsets : List Nat

/-- `builder.register_type::<T>()`: a fixed-size type takes its width from
the fixed portion; a variable-size type takes a 4-byte offset. -/
def sszRegisterOne (bytes : List Nat) (st : SszBuilderState) :
    SszType → Except String SszBuilderState
  | .fx w =>
    if st.ix + w ≤ bytes.length then
      .ok { st with ix := st.ix + w,
                    entries := st.entries ++ [some ((bytes.drop st.ix).take w)] }
    else .error "InvalidByteLength"
  | .vr =>
    if st.ix + 4 ≤ bytes.length then
      .ok { st with ix := st.ix + 4,
                    entries := st.entries ++ [none],
                    offsets := st.offsets ++ [uintFromLE ((bytes.drop st.ix).take 4)] }
    else .error "InvalidByteLength"

/-- All `register_type` calls in order. -/
def sszRegisterList (bytes : List Nat) :
    List SszType → SszBuilderState → Except String SszBuilderState
  | [], st => .ok st
  | t :: ts, st => do sszRegisterList bytes ts (← sszRegisterOne bytes st t)

/-- Offsets must be non-decreasing (each bounded by the next, the last by the
buffer length). -/
def offsetsMonotone : List Nat → Bool
  | [] => true
  | [_] => true
  | a :: b :: t => a ≤ b && offsetsMonotone (b :: t)

/-- Replace each placeholder with the slice between its offset and the next
(buffer end for the last). -/
def sszFillEntries (bytes : List Nat) :
    List (Option (List Nat)) → List Nat → List (List Nat)
  | [], _ => []
  | some bs :: es, offs => bs :: sszFillEntries bytes es offs
  | none :: es, o1 :: o2 :: offs =>
    ((bytes.drop o1).take (o2 - o1)) :: sszFillEntries bytes es (o2 :: offs)
  | none :: _, _ => []

/-- `builder.build()`: sanitize the offsets (the first must point exactly past
the fixed portion, they must be monotone and in bounds) and materialise one
byte-slice per registered type. -/
def sszBuild (bytes : List Nat) (types : List SszType) :
    Except String (List (List Nat)) := do
  let st ← sszRegisterList bytes types { ix := 0, entries := [], offsets := [] }
  match st.offsets with
  | [] => .ok (st.entries.map (·.getD []))
  | o :: _ =>
    if o = st.ix ∧ offsetsMonotone (st.offsets ++ [bytes.length]) then
      .ok (sszFillEntries bytes st.entries (st.offsets ++ [bytes.length]))
    else .error "bad offsets"

/-- `decoder.decode_next::<T>()`: pops the next item slice and decodes it with
`T::from_ssz_bytes`; popping past the registered items is a `panic!` in the
`ssz` crate, modelled as a distinguished error. -/
def sszDecodeNext (items : List (List Nat)) (f : List Nat → Except String α) :
    Except String (α × List (List Nat)) :=
  match items with
  | [] => .error "panic: decode_next past registered items"
  | bs :: rest => do .ok (← f bs, rest)

/-- `u64::from_ssz_bytes`. -/
def decodeU64Ssz (bs : List Nat) : Except String Nat :=
  if bs.length = 8 then .ok (uintFromLE bs) else .error "u64: wrong length"

/-- `U256::from_ssz_bytes`. -/
def decodeU256Ssz (bs : List Nat) : Except String Nat :=
  if bs.length = 32 then .ok (uintFromLE bs) else .error "U256: wrong length"

/-- `FixedBytes<w>::from_ssz_bytes`. -/
def decodeFixedBytesSsz (w : Nat) (bs : List Nat) : Except String (List Nat) :=
  if bs.length = w then .ok bs else .error "fixed bytes: wrong length"

/-- `Bytes::from_ssz_bytes`: the slice itself. -/
def decodeBytesSsz (bs : List Nat) : Except String (List Nat) := .ok bs

/-- `Vec<Bytes>::from_ssz_bytes`: an empty buffer is the empty list; otherwise
the first offset fixes the element count and the offset table is replayed. -/
def decodeVecBytesSsz (bs : List Nat) : Except String (List (List Nat)) :=
  if bs = [] then .ok []
  else if 4 ≤ bs.length then
    let o1 := uintFromLE (bs.take 4)
    if o1 = 0 ∨ o1 % 4 ≠ 0 then .error "Vec<Bytes>: bad first offset"
    else
      let n := o1 / 4
      let offs := (List.range n).map fun i => uintFromLE ((bs.drop (4 * i)).take 4)
      if 4 * n ≤ bs.length ∧ offsetsMonotone (offs ++ [bs.length]) ∧
          offs.headD 0 = 4 * n then
        .ok (((offs ++ [bs.length]).zip ((offs ++ [bs.length]).tail)).map
          fun oe => (bs.drop oe.1).take (oe.2 - oe.1))
      else .error "Vec<Bytes>: bad offsets"
  else .error "Vec<Bytes>: too short"

/-- `Withdrawal::from_ssz_bytes` (fixed 44 bytes). -/
def decodeWithdrawalSsz (bs : List Nat) : Except String Withdrawal :=
  if bs.length = 44 then
    .ok { index := uintFromLE (bs.take 8),
          validator_index := uintFromLE ((bs.drop 8).take 8),
          address := (bs.drop 16).take 20,
          amount := uintFromLE (bs.drop 36) }
  else .error "withdrawal: wrong length"

/-- Split a buffer of fixed-size elements into decoded chunks. -/
def decodeFixedListSsz (w : Nat) (f : List Nat → Except String α) :
    Nat → List Nat → Except String (List α)
  | _, [] => .ok []
  | 0, _ => .error "fixed list: fuel"
  | fuel + 1, bs => do
    let a ← f (bs.take w)
    let as ← decodeFixedListSsz w f fuel (bs.drop w)
    .ok (a :: as)

/-- `Vec<Withdrawal>::from_ssz_bytes`: fixed 44-byte chunks. -/
def decodeVecWithdrawalsSsz (bs : List Nat) : Except String (List Withdrawal) :=
  if bs.length % 44 = 0 then decodeFixedListSsz 44 decodeWithdrawalSsz bs.length bs
  else .error "Vec<Withdrawal>: wrong length"

/-- The fifteen types registered by
`<ExecutionPayloadV2 as ssz::Decode>::from_ssz_bytes` (payload.rs lines
237-251) — note `U256` (difficulty) and `B64` (nonce) are NOT registered. -/
def v2RegisteredTypes : List SszType :=
  [.fx 32, .fx 20, .fx 32, .fx 32, .fx 256, .fx 32, .fx 8, .fx 8, .fx 8, .fx 8,
   .vr, .fx 32, .fx 32, .vr, .vr]

/-- `<ExecutionPayloadV2 as ssz::Decode>::from_ssz_bytes` (payload.rs lines
234-276): fifteen registered types, then seventeen `decode_next` calls in
struct-literal order (the sixteen V1 fields including `difficulty` and
`nonce`, then `withdrawals`). -/
def fromSszBytesV2 (bytes : List Nat) : Except String ExecutionPayloadV2 := do
  let items ← sszBuild bytes v2RegisteredTypes
  let (parent_hash, items) ← sszDecodeNext items (decodeFixedBytesSsz 32)
  let (fee_recipient, items) ← sszDecodeNext items (decodeFixedBytesSsz 20)
  let (state_root, items) ← sszDecodeNext items (decodeFixedBytesSsz 32)
  let (receipts_root, items) ← sszDecodeNext items (decodeFixedBytesSsz 32)
  let (logs_bloom, items) ← sszDecodeNext items (decodeFixedBytesSsz 256)
  let (prev_randao, items) ← sszDecodeNext items (decodeFixedBytesSsz 32)
  let (block_number, items) ← sszDecodeNext items decodeU64Ssz
  let (gas_limit, items) ← sszDecodeNext items decodeU64Ssz
  let (gas_used, items) ← sszDecodeNext items decodeU64Ssz
  let (timestamp, items) ← sszDecodeNext items decodeU64Ssz
  let (extra_data, items) ← sszDecodeNext items decodeBytesSsz
  let (base_fee_per_gas, items) ← sszDecodeNext items decodeU256Ssz
  let (block_hash, items) ← sszDecodeNext items (decodeFixedBytesSsz 32)
  let (transactions, items) ← sszDecodeNext items decodeVecBytesSsz
  let (difficulty, items) ← sszDecodeNext items decodeU256Ssz
  let (nonce, items) ← sszDecodeNext items (decodeFixedBytesSsz 8)
  let (withdrawals, _) ← sszDecodeNext items decodeVecWithdrawalsSsz
  .ok { payload_inner :=
          { parent_hash, fee_recipient, state_root, receipts_root, logs_bloom,
            prev_randao, block_number, gas_limit, gas_used, timestamp,
            extra_data, base_fee_per_gas, block_hash, transactions, difficulty,
            nonce },
        withdrawals }

/-! ## BlobsBundleV1 and take -/

/-- `BlobsBundleV1` (payload.rs lines 457-464): commitments and proofs are
48-byte values, blobs are large fixed byte arrays — all modelled as byte
lists, since `take` never inspects them. -/
structure BlobsBundleV1 where
  commitments : List (List Nat)
  proofs : List (List Nat)
  blobs : List (List Nat)
deriving DecidableEq

/-- `Vec::drain(0..len).collect()`: the removed prefix and the remainder, or
a `panic!` (`none`) when `len` exceeds the vector's length. -/
def drainPrefix (l : List α) (n : Nat) : Option (List α × List α) :=
  if n ≤ l.length then some (l.take n, l.drop n) else none

/-- Outcome of `BlobsBundleV1::take`: either the three drained prefixes with
the remaining bundle, or a panic, carrying the bundle's state at the moment
the out-of-range `drain` aborted. -/
inductive TakeOutcome where
  | ok (commitments proofs blobs : List (List Nat)) (rest : BlobsBundleV1)
  | panicked (state : BlobsBundleV1)
deriving DecidableEq

/-- `BlobsBundleV1::take` (payload.rs lines 549-555): the three `drain` calls
run left to right — commitments, then proofs, then blobs — so a panic in a
later drain leaves the earlier fields already drained. -/
def BlobsBundleV1.take (b : BlobsBundleV1) (len : Nat) : TakeOutcome :=
  match drainPrefix b.commitments len with
  | none => .panicked b
  | some (tc, rc) =>
    match drainPrefix b.proofs len with
    | none => .panicked { b with commitments := rc }
    | some (tp, rp) =>
      match drainPrefix b.blobs len with
      | none => .panicked { b with commitments := rc, proofs := rp }
      | some (tb, rb) =>
        .ok tc tp tb { commitments := rc, proofs := rp, blobs := rb }

/-- Whether a `take` outcome is the panic case. -/
def TakeOutcome.isPanic : TakeOutcome → Bool
  | .panicked _ => true
  | .ok _ _ _ _ => false

/-! ## PayloadStatus -/

/-- `PayloadStatusEnum` (payload.rs lines 859-882). -/
inductive PayloadStatusEnum where
  | valid
  | invalid (validation_error : String)
  | syncing
  | accepted
deriving DecidableEq

/-- `PayloadStatusEnum::as_str` (payload.rs lines 886-893). -/
def PayloadStatusEnum.as_str : PayloadStatusEnum → String
  | .valid => "VALID"
  | .invalid _ => "INVALID"
  | .syncing => "SYNCING"
  | .accepted => "ACCEPTED"

/-- `PayloadStatusEnum::validation_error` (payload.rs lines 896-901). -/
def PayloadStatusEnum.validation_error : PayloadStatusEnum → Option String
  | .invalid e => some e
  | _ => none

/-- `PayloadStatus` (payload.rs lines 777-783); the latest valid hash is an
optional `B256`. -/
structure PayloadStatus where
  status : PayloadStatusEnum
  latest_valid_hash : Option (List Nat)
deriving DecidableEq

/-- The manual `Serialize` impl for `PayloadStatus` (payload.rs lines
835-847): a flat map of exactly three entries — `status` as its tag string,
`latestValidHash` (hex or null), `validationError` (message or null). -/
def serializePayloadStatus (ps : PayloadStatus) : Json :=
  .obj [("status", .str ps.status.as_str),
        ("latestValidHash",
          match ps.latest_valid_hash with
          | some h => .str (bytesToHex h)
          | none => .null),
        ("validationError",
          match ps.status.validation_error with
          | some e => .str e
          | none => .null)]

/-! ## Concrete sample values (used as witnesses and failing inputs) -/

/-- A small, fully valid `ExecutionPayloadV1` (all-zero digests, one-word
quantities, no transactions). -/
def sampleV1 : ExecutionPayloadV1 :=
  { parent_hash := List.replicate 32 0, fee_recipient := List.replicate 20 0,
    state_root := List.replicate 32 0, receipts_root := List.replicate 32 0,
    logs_bloom := List.replicate 256 0, prev_randao := List.replicate 32 0,
    block_number := 1, gas_limit := 3141592, gas_used := 0, timestamp := 0,
    extra_data := [], base_fee_per_gas := 7, block_hash := List.replicate 32 0,
    transactions := [], difficulty := 0, nonce := List.replicate 8 0 }

/-- A small, fully valid `ExecutionPayloadV2`. -/
def sampleV2 : ExecutionPayloadV2 :=
  { payload_inner := sampleV1, withdrawals := [] }

/-- A small, fully valid `ExecutionPayloadV3`. -/
def sampleV3 : ExecutionPayloadV3 :=
  { payload_inner := sampleV2, blob_gas_used := 0, excess_blob_gas := 0 }

/-- A JSON document carrying exactly the V3 key set for `sampleV3`. -/
def sampleV3Doc : Json :=
  .obj (serializeV1Fields sampleV1 ++
    [("withdrawals", .arr []), ("blobGasUsed", .str "0x0"),
     ("excessBlobGas", .str "0x0")])

/-- A bundle with two entries in each sequence. -/
def sampleBundle : BlobsBundleV1 :=
  { commitments := [[1], [2]], proofs := [[3], [4]], blobs := [[5], [6]] }

/-- A bundle whose commitments are longer than its proofs: the shape that
makes `take` abort between the first and second drain. -/
def lopsidedBundle : BlobsBundleV1 :=
  { commitments := [[1]], proofs := [], blobs := [] }

/-! ## Helper lemmas: the `Except` monad -/

@[simp] theorem exBind_ok (a : α) (f : α → Except String β) :
    (Except.ok a >>= f) = f a := rfl

@[simp] theorem exBind_error (e : String) (f : α → Except String β) :
    ((Except.error e : Except String α) >>= f) = .error e := rfl

theorem exBind_eq_ok {x : Except String α} {f : α → Except String β} {b : β}
    (h : (x >>= f) = .ok b) : ∃ a, x = .ok a ∧ f a = .ok b := by
  cases x with
  | ok a => exact ⟨a, rfl, h⟩
  | error e => simp at h

/-! ## Helper lemmas: hex digits and quantities -/

theorem hexDigitVal_hexDigitChar {d : Nat} (h : d < 16) :
    hexDigitVal (hexDigitChar d) = some d := by
  interval_cases d <;> decide

theorem natHexAux_all_lt : ∀ f n, ∀ d ∈ natHexAux f n, d < 16 := by
  intro f
  induction f with
  | zero => intro n d hd; simp [natHexAux] at hd
  | succ f ih =>
    intro n d hd
    by_cases hn : n < 16
    · simp [natHexAux, hn] at hd; omega
    · simp [natHexAux, hn] at hd
      rcases hd with hd | hd
      · omega
      · exact ih _ d hd

theorem natHexAux_val : ∀ f n, n < 16 ^ f → digitsValLE (natHexAux f n) = n := by
  intro f
  induction f with
  | zero => intro n hn; interval_cases n; simp [natHexAux, digitsValLE]
  | succ f ih =>
    intro n hn
    by_cases hsmall : n < 16
    · simp [natHexAux, hsmall, digitsValLE]
    · have hdiv : n / 16 < 16 ^ f := by
        rw [Nat.div_lt_iff_lt_mul (by norm_num)]
        calc n < 16 ^ (f + 1) := hn
        _ = 16 ^ f * 16 := by ring
      simp [natHexAux, hsmall, digitsValLE, ih _ hdiv]
      omega

theorem natHexLE_lt (n : Nat) : ∀ d ∈ natHexLE n, d < 16 :=
  natHexAux_all_lt (n + 1) n

theorem natHexLE_val (n : Nat) : digitsValLE (natHexLE n) = n := by
  apply natHexAux_val
  calc n < 16 ^ n := Nat.lt_pow_self (by norm_num) n
  _ ≤ 16 ^ (n + 1) := Nat.pow_le_pow_right (by norm_num) (by omega)

theorem natHexLE_ne_nil (n : Nat) : natHexLE n ≠ [] := by
  unfold natHexLE natHexAux
  by_cases h : n < 16 <;> simp [h]

theorem parseHexNat_append (xs ys : List Char) (acc : Nat) :
    parseHexNat (xs ++ ys) acc =
      match parseHexNat xs acc with
      | some a => parseHexNat ys a
      | none => none := by
  induction xs generalizing acc with
  | nil => simp [parseHexNat]
  | cons c cs ih =>
    simp only [List.cons_append, parseHexNat]
    cases hexDigitVal c with
    | some d => exact ih _
    | none => rfl

theorem parseHexNat_digits (ds : List Nat) (h : ∀ d ∈ ds, d < 16) (acc : Nat) :
    parseHexNat (ds.reverse.map hexDigitChar) acc =
      some (acc * 16 ^ ds.length + digitsValLE ds) := by
  induction ds generalizing acc with
  | nil => simp [parseHexNat, digitsValLE]
  | cons d tl ih =>
    have hd : d < 16 := h d (by simp)
    have htl : ∀ x ∈ tl, x < 16 := fun x hx => h x (by simp [hx])
    simp only [List.reverse_cons, List.map_append, parseHexNat_append]
    rw [ih htl acc]
    simp only [List.map_cons, List.map_nil, parseHexNat,
      hexDigitVal_hexDigitChar hd]
    have : digitsValLE (d :: tl) = d + 16 * digitsValLE tl := rfl
    rw [this]
    simp only [List.length_cons, pow_succ]
    ring_nf

theorem parseQuantity_quantityHex {bound n : Nat} (h : n < bound) :
    parseQuantity bound (quantityHex n) = .ok n := by
  have hdata : (quantityHex n).data =
      '0' :: 'x' :: ((natHexLE n).reverse.map hexDigitChar) := by
    simp [quantityHex, String.data_append]
  have hne : (natHexLE n).reverse.map hexDigitChar ≠ [] := by
    simp [natHexLE_ne_nil n]
  unfold parseQuantity
  rw [hdata]
  simp only [hne, if_false, if_true, and_self, reduceIte,
    parseHexNat_digits (natHexLE n) (natHexLE_lt n) 0]
  simp [natHexLE_val n, h]

/-! ## Helper lemmas: hex byte strings -/

theorem parseHexBytes_pairs (bs : List Nat) (h : bytesOk bs = true) :
    parseHexBytes (bytesToHexChars bs) = some bs := by
  induction bs with
  | nil => simp [bytesToHexChars, parseHexBytes]
  | cons b tl ih =>
    have hb : b < 256 := by
      have := h
      simp [bytesOk] at this
      exact this.1
    have htl : bytesOk tl = true := by
      simp [bytesOk] at h ⊢
      exact h.2
    have hhi : b / 16 < 16 := by omega
    have hlo : b % 16 < 16 := by omega
    have hb16 : 16 * (b / 16) + b % 16 = b := by omega
    simp only [bytesToHexChars, parseHexBytes,
      hexDigitVal_hexDigitChar hhi, hexDigitVal_hexDigitChar hlo,
      Option.some_bind]
    rw [ih htl]
    simp [hb16]

theorem parseBytesJson_bytesToHex (bs : List Nat) (h : bytesOk bs = true) :
    parseBytesJson (bytesToHex bs) = .ok bs := by
  have hdata : (bytesToHex bs).data = '0' :: 'x' :: bytesToHexChars bs := by
    simp [bytesToHex, String.data_append]
  unfold parseBytesJson
  rw [hdata]
  simp [parseHexBytes_pairs bs h]

theorem parseFixedBytesJson_bytesToHex {w : Nat} (bs : List Nat)
    (hlen : bs.length = w) (h : bytesOk bs = true) :
    parseFixedBytesJson w (bytesToHex bs) = .ok bs := by
  rw [parseFixedBytesJson]
  simp [parseBytesJson_bytesToHex bs h, hlen]

/-! ## Helper lemmas: object field lookup and typed getters -/

theorem findField_cons_ne {k' k : String} (v : Json) (l : List (String × Json))
    (h : k' ≠ k) : findField ((k', v) :: l) k = findField l k := by
  simp [findField, h]

theorem findField_skip_insert {k' k : String} (v : Json)
    (fs1 fs2 : List (String × Json)) (h : k ≠ k') :
    findField (fs1 ++ (k, v) :: fs2) k' = findField (fs1 ++ fs2) k' := by
  induction fs1 with
  | nil => simp [findField_cons_ne v fs2 h]
  | cons e tl ih =>
    by_cases he : e.1 = k'
    · simp [findField, he]
    · simp only [List.cons_append, findField, he, if_false, reduceIte]
      exact ih

theorem getFixedBytesField_ok {fs : List (String × Json)} {k : String} {w : Nat}
    {bs : List Nat} (hf : findField fs k = some (.str (bytesToHex bs)))
    (hlen : bs.length = w) (hok : bytesOk bs = true) :
    getFixedBytesField fs k w = .ok bs := by
  simp [getFixedBytesField, getField, hf, asStr,
    parseFixedBytesJson_bytesToHex bs hlen hok]

theorem getBytesField_ok {fs : List (String × Json)} {k : String} {bs : List Nat}
    (hf : findField fs k = some (.str (bytesToHex bs))) (hok : bytesOk bs = true) :
    getBytesField fs k = .ok bs := by
  simp [getBytesField, getField, hf, asStr, parseBytesJson_bytesToHex bs hok]

theorem getQuantityField_ok {fs : List (String × Json)} {k : String}
    {bound n : Nat} (hf : findField fs k = some (.str (quantityHex n)))
    (hn : n < bound) : getQuantityField fs k bound = .ok n := by
  simp [getQuantityField, getField, hf, asStr, parseQuantity_quantityHex hn]

theorem parseTxJson_roundtrip (tx : List Nat) (h : bytesOk tx = true) :
    parseTxJson (.str (bytesToHex tx)) = .ok tx := by
  simp [parseTxJson, asStr, parseBytesJson_bytesToHex tx h]

theorem parseListJson_txs (txs : List (List Nat)) (h : txs.all bytesOk = true) :
    parseListJson parseTxJson (txs.map fun tx => Json.str (bytesToHex tx)) =
      .ok txs := by
  induction txs with
  | nil => simp [parseListJson]
  | cons tx tl ih =>
    simp only [List.all_cons, Bool.and_eq_true] at h
    simp [parseListJson, parseTxJson_roundtrip tx h.1, ih h.2]

theorem getTxsField_ok {fs : List (String × Json)} {txs : List (List Nat)}
    (hf : findField fs "transactions" =
      some (.arr (txs.map fun tx => Json.str (bytesToHex tx))))
    (h : txs.all bytesOk = true) : getTxsField fs = .ok txs := by
  simp [getTxsField, getField, hf, asArr, parseListJson_txs txs h]

/-! ## The V1 JSON round trip -/

/-- Parsing the serialized fields of a valid `ExecutionPayloadV1` — possibly
followed by further fields, as in the flattened V2/input shapes — recovers the
payload. -/
theorem parseV1Obj_serialize (p : ExecutionPayloadV1)
    (extra : List (String × Json)) (h : validV1 p = true) :
    parseV1Obj (serializeV1Fields p ++ extra) = .ok p := by
  simp only [validV1, Bool.and_eq_true, beq_iff_eq, decide_eq_true_eq] at h
  obtain ⟨h1l, h1b, h2l, h2b, h3l, h3b, h4l, h4b, h5l, h5b, h6l, h6b, h7, h8,
    h9, h10, h11, h12, h13l, h13b, h14, h15, h16l, h16b⟩ := h
  have g1 : getFixedBytesField (serializeV1Fields p ++ extra) "parentHash" 32 =
      .ok p.parent_hash :=
    getFixedBytesField_ok (by simp [serializeV1Fields, findField]) h1l h1b
  have g2 : getFixedBytesField (serializeV1Fields p ++ extra) "feeRecipient" 20 =
      .ok p.fee_recipient :=
    getFixedBytesField_ok (by simp [serializeV1Fields, findField]) h2l h2b
  have g3 : getFixedBytesField (serializeV1Fields p ++ extra) "stateRoot" 32 =
      .ok p.state_root :=
    getFixedBytesField_ok (by simp [serializeV1Fields, findField]) h3l h3b
  have g4 : getFixedBytesField (serializeV1Fields p ++ extra) "receiptsRoot" 32 =
      .ok p.receipts_root :=
    getFixedBytesField_ok (by simp [serializeV1Fields, findField]) h4l h4b
  have g5 : getFixedBytesField (serializeV1Fields p ++ extra) "logsBloom" 256 =
      .ok p.logs_bloom :=
    getFixedBytesField_ok (by simp [serializeV1Fields, findField]) h5l h5b
  have g6 : getFixedBytesField (serializeV1Fields p ++ extra) "prevRandao" 32 =
      .ok p.prev_randao :=
    getFixedBytesField_ok (by simp [serializeV1Fields, findField]) h6l h6b
  have g7 : getQuantityField (serializeV1Fields p ++ extra) "blockNumber" (2 ^ 64) =
      .ok p.block_number :=
    getQuantityField_ok (by simp [serializeV1Fields, findField]) h7
  have g8 : getQuantityField (serializeV1Fields p ++ extra) "gasLimit" (2 ^ 64) =
      .ok p.gas_limit :=
    getQuantityField_ok (by simp [serializeV1Fields, findField]) h8
  have g9 : getQuantityField (serializeV1Fields p ++ extra) "gasUsed" (2 ^ 64) =
      .ok p.gas_used :=
    getQuantityField_ok (by simp [serializeV1Fields, findField]) h9
  have g10 : getQuantityField (serializeV1Fields p ++ extra) "timestamp" (2 ^ 64) =
      .ok p.timestamp :=
    getQuantityField_ok (by simp [serializeV1Fields, findField]) h10
  have g11 : getBytesField (serializeV1Fields p ++ extra) "extraData" =
      .ok p.extra_data :=
    getBytesField_ok (by simp [serializeV1Fields, findField]) h11
  have g12 : getQuantityField (serializeV1Fields p ++ extra) "baseFeePerGas" (2 ^ 256) =
      .ok p.base_fee_per_gas :=
    getQuantityField_ok (by simp [serializeV1Fields, findField]) h12
  have g13 : getFixedBytesField (serializeV1Fields p ++ extra) "blockHash" 32 =
      .ok p.block_hash :=
    getFixedBytesField_ok (by simp [serializeV1Fields, findField]) h13l h13b
  have g14 : getTxsField (serializeV1Fields p ++ extra) = .ok p.transactions :=
    getTxsField_ok (by simp [serializeV1Fields, findField]) h14
  have g15 : getQuantityField (serializeV1Fields p ++ extra) "difficulty" (2 ^ 256) =
      .ok p.difficulty :=
    getQuantityField_ok (by simp [serializeV1Fields, findField]) h15
  have g16 : getFixedBytesField (serializeV1Fields p ++ extra) "nonce" 8 =
      .ok p.nonce :=
    getFixedBytesField_ok (by simp [serializeV1Fields, findField]) h16l h16b
  simp only [parseV1Obj, g1, g2, g3, g4, g5, g6, g7, g8, g9, g10, g11, g12,
    g13, g14, g15, g16, exBind_ok]

/-! ## Claim C6 -/

/-- Claim C6: for every bundle whose three sequences each have length at least
`n`, `take n` returns the three length-`n` prefixes, in order, and the bundle
keeps exactly the remaining `original_length - n` elements of each sequence,
in order. -/
theorem take_returns_prefixes (b : BlobsBundleV1) (n : Nat)
    (hc : n ≤ b.commitments.length) (hp : n ≤ b.proofs.length)
    (hb : n ≤ b.blobs.length) :
    b.take n = .ok (b.commitments.take n) (b.proofs.take n) (b.blobs.take n)
      { commitments := b.commitments.drop n, proofs := b.proofs.drop n,
        blobs := b.blobs.drop n } ∧
    (b.commitments.take n).length = n ∧ (b.proofs.take n).length = n ∧
    (b.blobs.take n).length = n ∧
    (b.commitments.drop n).length = b.commitments.length - n ∧
    (b.proofs.drop n).length = b.proofs.length - n ∧
    (b.blobs.drop n).length = b.blobs.length - n := by
  refine ⟨?_, ?_, ?_, ?_, ?_, ?_, ?_⟩
  · simp [BlobsBundleV1.take, drainPrefix, hc, hp, hb]
  all_goals simp [List.length_take, List.length_drop] <;> omega

/-- Witness for C6, at `sampleBundle` and `n = 1`. -/
theorem take_returns_prefixes_witness :
    sampleBundle.take 1 = .ok [[1]] [[3]] [[5]]
      { commitments := [[2]], proofs := [[4]], blobs := [[6]] } :=
  (take_returns_prefixes sampleBundle 1 (by decide) (by decide) (by decide)).1

/-! ## Claim C7 -/

/-- Claim C7: `take n` with `n` larger than the length of any of the three
sequences aborts (panics) instead of returning a value — it never silently
truncates — and when `n` is at most every length the abort branch is
unreachable. -/
theorem take_panics_iff_short (b : BlobsBundleV1) (n : Nat) :
    (¬(n ≤ b.commitments.length ∧ n ≤ b.proofs.length ∧ n ≤ b.blobs.length) →
      (b.take n).isPanic = true) ∧
    ((n ≤ b.commitments.length ∧ n ≤ b.proofs.length ∧ n ≤ b.blobs.length) →
      (b.take n).isPanic = false) := by
  constructor
  · intro h
    by_cases hc : n ≤ b.commitments.length
    · by_cases hp : n ≤ b.proofs.length
      · have hb : ¬ n ≤ b.blobs.length := by tauto
        simp [BlobsBundleV1.take, drainPrefix, hc, hp, hb, TakeOutcome.isPanic]
      · simp [BlobsBundleV1.take, drainPrefix, hc, hp, TakeOutcome.isPanic]
    · simp [BlobsBundleV1.take, drainPrefix, hc, TakeOutcome.isPanic]
  · intro h
    simp [BlobsBundleV1.take, drainPrefix, h.1, h.2.1, h.2.2, TakeOutcome.isPanic]

/-- Witness for C7: `take 3` on a length-2 bundle panics, `take 2` does not. -/
theorem take_panics_iff_short_witness :
    (sampleBundle.take 3).isPanic = true ∧ (sampleBundle.take 2).isPanic = false :=
  ⟨(take_panics_iff_short sampleBundle 3).1 (by decide),
   (take_panics_iff_short sampleBundle 2).2 (by decide)⟩

/-! ## Claim C10 (corrected) -/

/-- Counterexample to C10 as stated: in the claim's scenario (`n` within the
commitments length but beyond the proofs length) the bundle cannot have
"started from" the equal-lengths invariant — at the concrete scenario input
the starting lengths already differ — even though the partial mutation the
claim describes does happen. -/
theorem take_partial_drain_counterexample :
    1 ≤ lopsidedBundle.commitments.length ∧ lopsidedBundle.proofs.length < 1 ∧
    lopsidedBundle.take 1 =
      .panicked { commitments := [], proofs := [], blobs := [] } ∧
    lopsidedBundle.commitments.length ≠ lopsidedBundle.proofs.length := by
  decide

/-- Claim C10 (amended): the three sequences are drained left to right, so
`take n` with `n` within the commitments length but beyond the proofs length
removes the first `n` commitments before aborting — the bundle is observably
mutated even though the call never returns, with proofs and blobs untouched;
such a call necessarily starts from unequal lengths (commitments strictly
longer than proofs). -/
theorem take_partial_drain_on_panic (b : BlobsBundleV1) (n : Nat)
    (hc : n ≤ b.commitments.length) (hp : b.proofs.length < n) :
    b.take n = .panicked { b with commitments := b.commitments.drop n } ∧
    (b.commitments.drop n).length < b.commitments.length ∧
    ({ b with commitments := b.commitments.drop n }).proofs = b.proofs ∧
    ({ b with commitments := b.commitments.drop n }).blobs = b.blobs ∧
    b.proofs.length < b.commitments.length := by
  have hp' : ¬ n ≤ b.proofs.length := by omega
  refine ⟨?_, ?_, rfl, rfl, by omega⟩
  · simp [BlobsBundleV1.take, drainPrefix, hc, hp']
  · simp [List.length_drop]
    omega

/-- Witness for the amended C10, at the lopsided bundle and `n = 1`. -/
theorem take_partial_drain_on_panic_witness :
    lopsidedBundle.take 1 =
      .panicked { commitments := [], proofs := [], blobs := [] } :=
  (take_partial_drain_on_panic lopsidedBundle 1 (by decide) (by decide)).1

/-! ## Claim C8 -/

/-- Claim C8: `PayloadStatus` serializes as a flat map with exactly the three
always-present keys `status`, `latestValidHash` (nullable) and
`validationError` (the error text in the `Invalid` case, else null); the
`Invalid "Failed to decode block"` status with no latest valid hash renders
to exactly the expected byte string. -/
theorem payload_status_serialization (ps : PayloadStatus) :
    objKeys (serializePayloadStatus ps) =
      ["status", "latestValidHash", "validationError"] ∧
    (∀ e, ps.status = .invalid e →
      findField (objFields (serializePayloadStatus ps)) "validationError" =
        some (.str e)) ∧
    (ps.status.validation_error = none →
      findField (objFields (serializePayloadStatus ps)) "validationError" =
        some .null) ∧
    render (serializePayloadStatus
        { status := .invalid "Failed to decode block",
          latest_valid_hash := none }) =
      "\x7b\"status\":\"INVALID\",\"latestValidHash\":null,\"validationError\":\"Failed to decode block\"\x7d" := by
  refine ⟨?_, ?_, ?_, ?_⟩
  · simp [serializePayloadStatus, objKeys]
  · intro e he
    simp [serializePayloadStatus, objFields, findField, he,
      PayloadStatusEnum.validation_error]
  · intro he
    simp [serializePayloadStatus, objFields, findField, he]
  · rfl

/-- Witness for C8, applying the theorem at the concrete invalid status. -/
theorem payload_status_serialization_witness :
    findField (objFields (serializePayloadStatus
        { status := .invalid "Failed to decode block",
          latest_valid_hash := none })) "validationError" =
      some (.str "Failed to decode block") :=
  (payload_status_serialization _).2.1 "Failed to decode block" rfl

/-! ## Claims C3 and C4: inversion helpers -/

theorem getQuantityField_isSome {fs : List (String × Json)} {k : String}
    {bound n : Nat} (h : getQuantityField fs k bound = .ok n) :
    (findField fs k).isSome = true := by
  unfold getQuantityField getField at h
  cases hf : findField fs k with
  | some v => simp
  | none => rw [hf] at h; simp at h

theorem getQuantityField_congr {fs fs' : List (String × Json)} {k : String}
    (bound : Nat) (h : findField fs k = findField fs' k) :
    getQuantityField fs k bound = getQuantityField fs' k bound := by
  unfold getQuantityField getField
  rw [h]

/-- Inverting a successful `ExecutionPayloadV3` parse into its three stages. -/
theorem parseV3Obj_inv {fs : List (String × Json)} {p : ExecutionPayloadV3}
    (h : parseV3Obj fs = .ok p) :
    getQuantityField fs "blobGasUsed" (2 ^ 64) = .ok p.blob_gas_used ∧
    getQuantityField fs "excessBlobGas" (2 ^ 64) = .ok p.excess_blob_gas ∧
    parseV2Obj (fs.filter fun e =>
        decide (e.1 ≠ "blobGasUsed" ∧ e.1 ≠ "excessBlobGas")) =
      .ok p.payload_inner := by
  unfold parseV3Obj at h
  obtain ⟨a, ha, h⟩ := exBind_eq_ok h
  obtain ⟨b, hb, h⟩ := exBind_eq_ok h
  obtain ⟨c, hc, h⟩ := exBind_eq_ok h
  simp only [Except.ok.injEq] at h
  subst h
  exact ⟨ha, hb, hc⟩

/-- A successful `parseV2Obj` implies every key passed the unknown-field
check. -/
theorem parseV2Obj_all_known {fs : List (String × Json)}
    {p : ExecutionPayloadV2} (h : parseV2Obj fs = .ok p) :
    fs.all (fun e => decide (e.1 ∈ v2Keys)) = true := by
  unfold parseV2Obj at h
  by_cases hall : fs.all (fun e => decide (e.1 ∈ v2Keys)) = true
  · exact hall
  · rw [if_neg hall] at h
    simp at h

/-! ## Claim C3 -/

/-- Claim C3: the untagged `ExecutionPayload` deserializer tries V3 first
(order V3, V2, V1), so every document that parses as a V3 record — which
forces the V3-only keys `blobGasUsed` and `excessBlobGas` to be present —
decodes to the V3 variant and is never truncated to V2 or V1. -/
theorem untagged_order_prefers_v3 (fs : List (String × Json))
    (p : ExecutionPayloadV3) (h : parseV3Json (.obj fs) = .ok p) :
    parseExecutionPayload (.obj fs) = .ok (.v3 p) ∧
    (findField fs "blobGasUsed").isSome = true ∧
    (findField fs "excessBlobGas").isSome = true ∧
    (∀ q, parseExecutionPayload (.obj fs) ≠ .ok (.v1 q)) ∧
    (∀ q, parseExecutionPayload (.obj fs) ≠ .ok (.v2 q)) := by
  have hmain : parseExecutionPayload (.obj fs) = .ok (.v3 p) := by
    simp [parseExecutionPayload, h]
  have hv3 : parseV3Obj fs = .ok p := h
  obtain ⟨hbgu, hebg, _⟩ := parseV3Obj_inv hv3
  refine ⟨hmain, getQuantityField_isSome hbgu, getQuantityField_isSome hebg,
    ?_, ?_⟩
  · intro q hq
    rw [hmain] at hq
    simp at hq
  · intro q hq
    rw [hmain] at hq
    simp at hq

/-- Witness for C3, at the sample V3 document. -/
theorem untagged_order_prefers_v3_witness :
    parseExecutionPayload sampleV3Doc = .ok (.v3 sampleV3) :=
  (untagged_order_prefers_v3 _ sampleV3 (by decide)).1

/-! ## Claim C4 -/

/-- Claim C4: inserting one key outside the known V3 field set anywhere into a
document that parses as a V3 record makes the parse fail, and removing it
makes the parse succeed again. -/
theorem v3_rejects_unknown_field (fs1 fs2 : List (String × Json)) (k : String)
    (v : Json) (p : ExecutionPayloadV3)
    (h : parseV3Json (.obj (fs1 ++ fs2)) = .ok p) (hk : k ∉ v3Keys) :
    (parseV3Json (.obj (fs1 ++ (k, v) :: fs2))).isOk = false ∧
    parseV3Json (.obj (fs1 ++ fs2)) = .ok p := by
  have hbgu : k ≠ "blobGasUsed" := by
    intro he; subst he; exact hk (by decide)
  have hebg : k ≠ "excessBlobGas" := by
    intro he; subst he; exact hk (by decide)
  have hkv2 : k ∉ v2Keys := by
    intro hm
    exact hk (by simp [v3Keys]; exact Or.inl hm)
  have hv3 : parseV3Obj (fs1 ++ fs2) = .ok p := h
  obtain ⟨hg1, hg2, hinner⟩ := parseV3Obj_inv hv3
  -- the two quantity getters do not see the inserted key
  have hg1' : getQuantityField (fs1 ++ (k, v) :: fs2) "blobGasUsed" (2 ^ 64) =
      .ok p.blob_gas_used := by
    rw [getQuantityField_congr _ (findField_skip_insert v fs1 fs2 hbgu)]
    exact hg1
  have hg2' : getQuantityField (fs1 ++ (k, v) :: fs2) "excessBlobGas" (2 ^ 64) =
      .ok p.excess_blob_gas := by
    rw [getQuantityField_congr _ (findField_skip_insert v fs1 fs2 hebg)]
    exact hg2
  -- the inserted key survives the V3 filter and fails the V2 known-key check
  have hPk : (fun e : String × Json =>
      decide (e.1 ≠ "blobGasUsed" ∧ e.1 ≠ "excessBlobGas")) (k, v) = true := by
    simp only [decide_eq_true_eq, ne_eq]
    exact ⟨hbgu, hebg⟩
  have hfilter : ((fs1 ++ (k, v) :: fs2).filter fun e =>
      decide (e.1 ≠ "blobGasUsed" ∧ e.1 ≠ "excessBlobGas")) =
      (fs1.filter fun e =>
        decide (e.1 ≠ "blobGasUsed" ∧ e.1 ≠ "excessBlobGas")) ++
      (k, v) :: (fs2.filter fun e =>
        decide (e.1 ≠ "blobGasUsed" ∧ e.1 ≠ "excessBlobGas")) := by
    rw [List.filter_append, List.filter_cons, if_pos hPk]
  have hallfalse : ((fs1.filter fun e =>
      decide (e.1 ≠ "blobGasUsed" ∧ e.1 ≠ "excessBlobGas")) ++
      (k, v) :: (fs2.filter fun e =>
        decide (e.1 ≠ "blobGasUsed" ∧ e.1 ≠ "excessBlobGas"))).all
      (fun e => decide (e.1 ∈ v2Keys)) = false := by
    cases hx : ((fs1.filter fun e =>
        decide (e.1 ≠ "blobGasUsed" ∧ e.1 ≠ "excessBlobGas")) ++
        (k, v) :: (fs2.filter fun e =>
          decide (e.1 ≠ "blobGasUsed" ∧ e.1 ≠ "excessBlobGas"))).all
        (fun e => decide (e.1 ∈ v2Keys)) with
    | false => rfl
    | true =>
      have hmem := List.all_eq_true.mp hx (k, v) (by simp)
      simp only [decide_eq_true_eq] at hmem
      exact absurd hmem hkv2
  have hv2err : parseV2Obj ((fs1 ++ (k, v) :: fs2).filter fun e =>
      decide (e.1 ≠ "blobGasUsed" ∧ e.1 ≠ "excessBlobGas")) =
      .error "unknown field" := by
    rw [hfilter]
    unfold parseV2Obj
    rw [if_neg (by simp only [hallfalse]; exact Bool.false_ne_true)]
  refine ⟨?_, h⟩
  show (parseV3Obj (fs1 ++ (k, v) :: fs2)).isOk = false
  unfold parseV3Obj
  rw [hg1', hg2']
  simp only [exBind_ok]
  rw [hv2err]
  rfl

/-- Witness for C4: adding `randomStuff` to the sample V3 document makes the
parse fail; the document without it parses. -/
theorem v3_rejects_unknown_field_witness :
    (parseV3Json (.obj ((serializeV1Fields sampleV1 ++
        [("withdrawals", Json.arr [])]) ++
      ("randomStuff", Json.arr []) ::
        [("blobGasUsed", Json.str "0x0"),
         ("excessBlobGas", Json.str "0x0")]))).isOk = false ∧
    parseV3Json (.obj ((serializeV1Fields sampleV1 ++
        [("withdrawals", Json.arr [])]) ++
      [("blobGasUsed", Json.str "0x0"),
       ("excessBlobGas", Json.str "0x0")])) = .ok sampleV3 :=
  v3_rejects_unknown_field
    (serializeV1Fields sampleV1 ++ [("withdrawals", Json.arr [])])
    [("blobGasUsed", Json.str "0x0"), ("excessBlobGas", Json.str "0x0")]
    "randomStuff" (Json.arr []) sampleV3 (by decide) (by decide)

/-! ## Claim C5 -/

/-- Claim C5: decoding the JSON encoding of a valid `ExecutionPayloadV1`
yields the payload back, re-encoding reproduces the identical byte string, and
quantities render as minimal lowercase hex — `block_number = 1` renders as
`"0x1"` and `gas_limit = 0x2fefd8` as `"0x2fefd8"`. -/
theorem v1_json_roundtrip (p : ExecutionPayloadV1) (h : validV1 p = true) :
    parseV1Json (serializeV1Json p) = .ok p ∧
    (∀ q, parseV1Json (serializeV1Json p) = .ok q →
      render (serializeV1Json q) = render (serializeV1Json p)) ∧
    (p.block_number = 1 →
      findField (serializeV1Fields p) "blockNumber" = some (.str "0x1")) ∧
    (p.gas_limit = 3141592 →
      findField (serializeV1Fields p) "gasLimit" = some (.str "0x2fefd8")) := by
  have hmain : parseV1Json (serializeV1Json p) = .ok p := by
    have := parseV1Obj_serialize p [] h
    rw [List.append_nil] at this
    simpa [parseV1Json, serializeV1Json] using this
  refine ⟨hmain, ?_, ?_, ?_⟩
  · intro q hq
    rw [hmain] at hq
    simp only [Except.ok.injEq] at hq
    rw [hq]
  · intro hbn
    have : quantityHex p.block_number = "0x1" := by rw [hbn]; rfl
    simp [serializeV1Fields, findField, this]
  · intro hgl
    have : quantityHex p.gas_limit = "0x2fefd8" := by rw [hgl]; rfl
    simp [serializeV1Fields, findField, this]

/-- Witness for C5, at the sample payload (`block_number = 1`,
`gas_limit = 0x2fefd8`). -/
theorem v1_json_roundtrip_witness :
    parseV1Json (serializeV1Json sampleV1) = .ok sampleV1 ∧
    findField (serializeV1Fields sampleV1) "blockNumber" = some (.str "0x1") ∧
    findField (serializeV1Fields sampleV1) "gasLimit" = some (.str "0x2fefd8") :=
  ⟨(v1_json_roundtrip sampleV1 (by decide)).1,
   (v1_json_roundtrip sampleV1 (by decide)).2.2.1 rfl,
   (v1_json_roundtrip sampleV1 (by decide)).2.2.2 rfl⟩

/-! ## Claim C9 -/

/-- Claim C9: on the input-only V2 shape, serializing with absent withdrawals
omits the `withdrawals` key entirely; a document without the key parses to
absent (`none`) — in general, and in particular for the serialized output —
while a document with an explicit empty array parses to present-but-empty
(`some []`), so the two states stay distinguishable across a round trip. -/
theorem input_v2_withdrawals_asymmetry (p1 : ExecutionPayloadV1)
    (h : validV1 p1 = true) :
    (objKeys (serializeInputV2Json
        { execution_payload := p1, withdrawals := none })).contains
      "withdrawals" = false ∧
    parseInputV2Json (serializeInputV2Json
        { execution_payload := p1, withdrawals := none }) =
      .ok { execution_payload := p1, withdrawals := none } ∧
    parseInputV2Json (.obj (serializeV1Fields p1 ++
        [("withdrawals", .arr [])])) =
      .ok { execution_payload := p1, withdrawals := some [] } ∧
    (∀ fs r, parseInputV2Json (.obj fs) = .ok r →
      findField fs "withdrawals" = none → r.withdrawals = none) := by
  have hkeys : ∀ e ∈ serializeV1Fields p1, decide (e.1 ∈ v2Keys) = true := by
    intro e he
    simp only [serializeV1Fields] at he
    fin_cases he <;> simp [v2Keys, v1Keys]
  refine ⟨?_, ?_, ?_, ?_⟩
  · simp only [serializeInputV2Json, objKeys, List.append_nil, serializeV1Fields,
      List.map_cons, List.map_nil]
    decide
  · simp only [serializeInputV2Json, List.append_nil, parseInputV2Json]
    rw [if_pos (List.all_eq_true.mpr hkeys)]
    have hv1 := parseV1Obj_serialize p1 [] h
    rw [List.append_nil] at hv1
    rw [hv1]
    simp only [exBind_ok]
    have hnone : findField (serializeV1Fields p1) "withdrawals" = none := by
      simp [serializeV1Fields, findField]
    rw [hnone]
  · simp only [parseInputV2Json]
    rw [if_pos]
    · have hv1 := parseV1Obj_serialize p1 [("withdrawals", .arr [])] h
      rw [hv1]
      simp only [exBind_ok]
      have hfind : findField (serializeV1Fields p1 ++ [("withdrawals", .arr [])])
          "withdrawals" = some (.arr []) := by
        simp [serializeV1Fields, findField]
      rw [hfind]
      simp [asArr, parseListJson]
    · refine List.all_eq_true.mpr ?_
      intro e he
      simp only [List.mem_append, List.mem_singleton] at he
      rcases he with he | he
      · exact hkeys e he
      · subst he
        simp [v2Keys]
  · intro fs r hok hnone
    simp only [parseInputV2Json] at hok
    by_cases hall : fs.all (fun e => decide (e.1 ∈ v2Keys)) = true
    · rw [if_pos hall] at hok
      obtain ⟨inner, hinner, hok⟩ := exBind_eq_ok hok
      rw [hnone] at hok
      simp only [exBind_ok, Except.ok.injEq] at hok
      rw [← hok]
    · rw [if_neg hall] at hok
      simp at hok

/-- Witness for C9, at the sample payload. -/
theorem input_v2_withdrawals_asymmetry_witness :
    parseInputV2Json (serializeInputV2Json
        { execution_payload := sampleV1, withdrawals := none }) =
      .ok { execution_payload := sampleV1, withdrawals := none } ∧
    parseInputV2Json (.obj (serializeV1Fields sampleV1 ++
        [("withdrawals", .arr [])])) =
      .ok { execution_payload := sampleV1, withdrawals := some [] } :=
  ⟨(input_v2_withdrawals_asymmetry sampleV1 (by decide)).2.1,
   (input_v2_withdrawals_asymmetry sampleV1 (by decide)).2.2.1⟩

/-! ## Claims C1 and C2: SSZ length lemmas -/

theorem length_encodeUIntLE (w : Nat) : ∀ n, (encodeUIntLE w n).length = w := by
  induction w with
  | zero => intro n; rfl
  | succ w ih => intro n; simp [encodeUIntLE, ih]

theorem length_vecOffsets (xs : List (List Nat)) :
    ∀ s, (vecOffsets s xs).length = 4 * xs.length := by
  induction xs with
  | nil => intro s; rfl
  | cons x tl ih =>
    intro s
    simp [vecOffsets, length_encodeUIntLE, ih]
    ring

theorem length_flatMap_id (xs : List (List Nat)) :
    (xs.flatMap id).length = (xs.map List.length).sum := by
  induction xs with
  | nil => rfl
  | cons x tl ih => simp [List.flatMap_cons, ih]

theorem length_encodeVecBytesSsz (xs : List (List Nat)) :
    (encodeVecBytesSsz xs).length = 4 * xs.length + (xs.map List.length).sum := by
  simp [encodeVecBytesSsz, length_vecOffsets, length_flatMap_id]

theorem length_encodeWithdrawalSsz (w : Withdrawal)
    (h : w.address.length = 20) : (encodeWithdrawalSsz w).length = 44 := by
  simp [encodeWithdrawalSsz, length_encodeUIntLE, h]

theorem length_encodeVecWithdrawalsSsz (ws : List Withdrawal)
    (h : ws.all validWithdrawal = true) :
    (encodeVecWithdrawalsSsz ws).length = 44 * ws.length := by
  induction ws with
  | nil => rfl
  | cons w tl ih =>
    simp only [List.all_cons, Bool.and_eq_true] at h
    have haddr : w.address.length = 20 := by
      have := h.1
      simp only [validWithdrawal, Bool.and_eq_true, beq_iff_eq,
        decide_eq_true_eq] at this
      exact this.2.2.1
    simp only [encodeVecWithdrawalsSsz, List.flatMap_cons, List.length_append]
    have htl : (encodeVecWithdrawalsSsz tl).length = 44 * tl.length := ih h.2
    simp only [encodeVecWithdrawalsSsz] at htl
    rw [length_encodeWithdrawalSsz w haddr, htl]
    simp [List.length_cons]
    ring

/-- The number of bytes `ExecutionPayloadV2::ssz_append` writes: the declared
512-byte fixed portion plus the three variable tails. -/
theorem length_sszAppendV2 (p : ExecutionPayloadV2) (h : validV2 p = true) :
    (sszAppendV2 p).length =
      512 + p.payload_inner.extra_data.length +
      (encodeVecBytesSsz p.payload_inner.transactions).length +
      (encodeVecWithdrawalsSsz p.withdrawals).length := by
  have hv1 : validV1 p.payload_inner = true := by
    simp only [validV2, Bool.and_eq_true] at h
    exact h.1
  simp only [validV1, Bool.and_eq_true, beq_iff_eq, decide_eq_true_eq] at hv1
  obtain ⟨h1l, -, h2l, -, h3l, -, h4l, -, h5l, -, h6l, -, -, -, -, -, -, -,
    h13l, -, -, -, -, -⟩ := hv1
  simp only [sszAppendV2, sszAppendFixed, sszAppendVariable, sszContainer,
    sszFinalize, encodeBytesSsz, List.length_append, length_encodeUIntLE,
    List.nil_append]
  rw [h1l, h2l, h3l, h4l, h5l, h6l, h13l]
  omega

/-- The number of bytes `ExecutionPayloadV3::ssz_append` writes. -/
theorem length_sszAppendV3 (p : ExecutionPayloadV3) (h : validV3 p = true) :
    (sszAppendV3 p).length =
      528 + p.payload_inner.payload_inner.extra_data.length +
      (encodeVecBytesSsz p.payload_inner.payload_inner.transactions).length +
      (encodeVecWithdrawalsSsz p.payload_inner.withdrawals).length := by
  have hv1 : validV1 p.payload_inner.payload_inner = true := by
    simp only [validV3, validV2, Bool.and_eq_true] at h
    exact h.1.1
  simp only [validV1, Bool.and_eq_true, beq_iff_eq, decide_eq_true_eq] at hv1
  obtain ⟨h1l, -, h2l, -, h3l, -, h4l, -, h5l, -, h6l, -, -, -, -, -, -, -,
    h13l, -, -, -, -, -⟩ := hv1
  simp only [sszAppendV3, sszAppendFixed, sszAppendVariable, sszContainer,
    sszFinalize, encodeBytesSsz, List.length_append, length_encodeUIntLE,
    List.nil_append]
  rw [h1l, h2l, h3l, h4l, h5l, h6l, h13l]
  omega

/-! ## Claim C2 (corrected) -/

/-- Counterexample to C2 as stated: at the sample payloads, `ssz_bytes_len`
is not the number of bytes `ssz_append` writes (it is 40 bytes more, for V2
and for V3 alike). -/
theorem ssz_bytes_len_counterexample :
    sszBytesLenV2 sampleV2 ≠ (sszAppendV2 sampleV2).length ∧
    sszBytesLenV3 sampleV3 ≠ (sszAppendV3 sampleV3).length ∧
    sszBytesLenV2 sampleV2 = 552 ∧ (sszAppendV2 sampleV2).length = 512 := by
  decide

/-- Claim C2 (amended): for every valid `ExecutionPayloadV2` and
`ExecutionPayloadV3`, `ssz_bytes_len` equals the structural sum — fixed-size
field widths of all declared fields (including `difficulty` and `nonce`), one
4-byte offset per variable-size field, plus the encoded variable contents —
but exceeds the number of bytes `ssz_append` actually writes by exactly 40,
the widths of `difficulty` (32) and `nonce` (8), which the encoder omits. -/
theorem ssz_bytes_len_structural (p2 : ExecutionPayloadV2)
    (p3 : ExecutionPayloadV3) (h2 : validV2 p2 = true)
    (h3 : validV3 p3 = true) :
    sszBytesLenV2 p2 = specTotalLengthV2 p2 ∧
    sszBytesLenV2 p2 = (sszAppendV2 p2).length + 40 ∧
    sszBytesLenV3 p3 = (sszAppendV3 p3).length + 40 := by
  have hw2 : (encodeVecWithdrawalsSsz p2.withdrawals).length =
      44 * p2.withdrawals.length := by
    apply length_encodeVecWithdrawalsSsz
    simp only [validV2, Bool.and_eq_true] at h2
    exact h2.2
  have hw3 : (encodeVecWithdrawalsSsz p3.payload_inner.withdrawals).length =
      44 * p3.payload_inner.withdrawals.length := by
    apply length_encodeVecWithdrawalsSsz
    simp only [validV3, validV2, Bool.and_eq_true] at h3
    exact h3.1.2
  refine ⟨?_, ?_, ?_⟩
  · simp only [sszBytesLenV2, sszBytesLenV1, specTotalLengthV2,
      sszBytesLenVecBytes, length_encodeVecBytesSsz, hw2]
    omega
  · rw [length_sszAppendV2 p2 h2]
    simp only [sszBytesLenV2, sszBytesLenV1, sszBytesLenVecBytes,
      length_encodeVecBytesSsz, hw2]
    omega
  · rw [length_sszAppendV3 p3 h3]
    simp only [sszBytesLenV3, sszBytesLenV2, sszBytesLenV1,
      sszBytesLenVecBytes, length_encodeVecBytesSsz, hw3]
    omega

/-- Witness for the amended C2, at the sample payloads. -/
theorem ssz_bytes_len_structural_witness :
    sszBytesLenV2 sampleV2 = specTotalLengthV2 sampleV2 ∧
    sszBytesLenV2 sampleV2 = (sszAppendV2 sampleV2).length + 40 ∧
    sszBytesLenV3 sampleV3 = (sszAppendV3 sampleV3).length + 40 :=
  ssz_bytes_len_structural sampleV2 sampleV3 (by decide) (by decide)

/-! ## Claim C1 (a code bug) -/

/-- Claim C1 fails on the code: the SSZ round trip breaks for
`ExecutionPayloadV2` (and V3).  `ssz_append` never writes `difficulty` and
`nonce`, while `from_ssz_bytes` registers only fifteen types yet decodes
seventeen fields, so the withdrawals slice is consumed as the 32-byte
`difficulty` and decoding always fails: at the sample payload,
`from_ssz_bytes(as_ssz_bytes(r))` is an error, not `Ok(r)`. -/
theorem ssz_roundtrip_v2_fails :
    (fromSszBytesV2 (sszAppendV2 sampleV2)).isOk = false ∧
    fromSszBytesV2 (sszAppendV2 sampleV2) ≠ .ok sampleV2 := by
  decide

end Payload
